import Mathlib

/-!
Shallow embedding of pagmo/detail/custom_comparisons.hpp: NaN-aware
comparison, equality and hashing primitives for floating-point scalars
and vectors of scalars.

Scalars are modelled by the inductive type `F`: a NaN with an arbitrary
payload bit pattern, one of the two infinities, or a finite value given by
a rational number together with a flag distinguishing the negative-zero
representation (the flag is only meaningful for the value zero and is
ignored by every native comparison, mirroring IEEE-754 semantics where
+0.0 == -0.0).
-/

namespace PagmoDetail

/-- Model of a floating-point value of a scalar type T: NaN carries its
payload bit pattern, infinities are distinguished, and a finite value is a
rational plus a flag marking the negative-zero object representation. -/
inductive F where
  | nan (bits : Nat)
  | negInf
  | posInf
  | finite (q : ℚ) (negZero : Bool)
deriving DecidableEq, Repr

/-- Native isnan test, `std::isnan`. -/
def isnan : F → Bool
  | .nan _ => true
  | _ => false

/-- Native floating-point strict less-than: false whenever either operand
is NaN, otherwise the order negInf < finite values < posInf with finite
values ordered as rationals (the negative-zero flag is ignored, so
-0.0 < +0.0 is false). -/
def nlt : F → F → Bool
  | .nan _, _ => false
  | _, .nan _ => false
  | .negInf, .negInf => false
  | .negInf, _ => true
  | _, .negInf => false
  | .posInf, _ => false
  | .finite _ _, .posInf => true
  | .finite q _, .finite r _ => decide (q < r)

/-- Native floating-point equality: false whenever either operand is NaN,
infinities equal only themselves, finite values compare by rational value
(so +0.0 == -0.0 holds). -/
def neq : F → F → Bool
  | .nan _, _ => false
  | _, .nan _ => false
  | .negInf, .negInf => true
  | .posInf, .posInf => true
  | .finite q _, .finite r _ => decide (q = r)
  | _, _ => false

/-- Outcomes of the C++20 three-way comparison `a <=> b` at type
std::partial_ordering. -/
inductive POrd where
  | lt
  | gt
  | equiv
  | unord
deriving DecidableEq, Repr

/-- The C++20 three-way comparison `a <=> b` on floating-point operands:
unordered when either operand is NaN, otherwise less, greater or
equivalent according to the native comparisons. -/
def cmp3 (a b : F) : POrd :=
  if isnan a || isnan b then .unord
  else if nlt a b then .lt
  else if nlt b a then .gt
  else .equiv

/-- Embedding of less_than_f from custom_comparisons.hpp (the C++20
three-way-comparison branch): native less-than on ordered operands, with a
lone NaN placed after everything when After is true and before everything
when After is false, and two NaNs never strictly ordered. -/
def less_than_f (After : Bool) (a b : F) : Bool :=
  match cmp3 a b with
  | .lt => true
  | .gt => false
  | .equiv => false
  | .unord =>
    let a_nan := isnan a
    let b_nan := isnan b
    if !a_nan && b_nan then After
    else if a_nan && !b_nan then !After
    else false

/-- Embedding of greater_than_f from custom_comparisons.hpp (the C++20
three-way-comparison branch): native greater-than on ordered operands,
with NaN placement mirrored from less_than_f under the same flag. -/
def greater_than_f (After : Bool) (a b : F) : Bool :=
  match cmp3 a b with
  | .gt => true
  | .lt => false
  | .equiv => false
  | .unord =>
    let a_nan := isnan a
    let b_nan := isnan b
    if !a_nan && b_nan then !After
    else if a_nan && !b_nan then After
    else false

/-- Embedding of equal_to_f from custom_comparisons.hpp (the C++20
three-way-comparison branch): native equality, except that two NaNs
compare equal. -/
def equal_to_f (a b : F) : Bool :=
  match cmp3 a b with
  | .equiv => true
  | .unord => isnan a && isnan b
  | _ => false

/-- Embedding of the equal_to_vf functor from custom_comparisons.hpp:
vectors of different length are unequal, otherwise std::equal compares the
two ranges pointwise with equal_to_f. -/
def equal_to_vf (lhs rhs : List F) : Bool :=
  if lhs.length ≠ rhs.length then false
  else (List.zip lhs rhs).all fun p => equal_to_f p.1 p.2

/-- Native floating-point strict greater-than: false whenever either
operand is NaN, otherwise the mirror of native less-than. -/
def ngt : F → F → Bool
  | .nan _, _ => false
  | _, .nan _ => false
  | .negInf, _ => false
  | .posInf, .posInf => false
  | .posInf, _ => true
  | .finite _ _, .posInf => false
  | .finite _ _, .negInf => true
  | .finite q _, .finite r _ => decide (r < q)

/-- Model of boost hash_value on a floating-point scalar: the hash is
computed from the object representation of the value, with the two signed
zeros normalized to the same hash; NaN payload bit patterns are not
canonicalized, so distinct NaN representations yield distinct hashes.
Encoded here as an injective map to Nat that ignores the negative-zero
flag and keeps NaN payloads apart. -/
def floatHash : F → Nat
  | .negInf => 1
  | .posInf => 2
  | .nan bits => 3 + 8 * bits
  | .finite q _ => 4 + 8 * Nat.pair q.num.natAbs (Nat.pair (if q.num < 0 then 1 else 0) q.den)

/-- Model of boost hash_combine on a 64-bit std::size_t seed:
seed ^= hash_value(v) + 0x9e3779b9 + (seed << 6) + (seed >> 2). -/
def hash_combine (seed h : Nat) : Nat :=
  Nat.xor seed ((h + 0x9e3779b9 + seed * 64 + seed / 4) % 2 ^ 64) % 2 ^ 64

/-- Embedding of the hash_vf functor from custom_comparisons.hpp: start
from the seed 0 and fold each element's hash into the accumulator with
boost hash_combine, in sequence order. -/
def hash_vf (v : List F) : Nat :=
  v.foldl (fun retval el => hash_combine retval (floatHash el)) 0

/-! Helper lemmas: order facts about the native comparisons, and branch-form
characterizations of the embedded operations that eliminate the three-way
comparison in favour of isnan case analysis (the pre-C++20 shape of the
same source functions). -/

theorem ngt_eq_nlt_swap (a b : F) : ngt a b = nlt b a := by
  rcases a <;> rcases b <;> simp [ngt, nlt]

theorem nlt_irrefl (a : F) : nlt a a = false := by
  rcases a <;> simp [nlt]

theorem nlt_asymm {a b : F} (h : nlt a b = true) : nlt b a = false := by
  rcases a <;> rcases b <;> simp_all [nlt]
  exact le_of_lt h

theorem nlt_trans {a b c : F} (h1 : nlt a b = true) (h2 : nlt b c = true) :
    nlt a c = true := by
  rcases a <;> rcases b <;> rcases c <;> simp_all [nlt]
  exact lt_trans h1 h2

theorem nlt_connex {a b : F} (ha : isnan a = false) (hb : isnan b = false)
    (h1 : nlt a b = false) (h2 : nlt b a = false) : neq a b = true := by
  rcases a <;> rcases b <;> simp_all [nlt, neq, isnan]
  first
  | exact le_antisymm h1 h2
  | exact le_antisymm h2 h1

theorem nlt_neq {a b : F} (h : nlt a b = true) : neq a b = false := by
  rcases a <;> rcases b <;> simp_all [nlt, neq]
  exact ne_of_lt h

theorem neq_symm (a b : F) : neq a b = neq b a := by
  rcases a <;> rcases b <;> simp [neq, eq_comm]

theorem neq_trans {a b c : F} (h1 : neq a b = true) (h2 : neq b c = true) :
    neq a c = true := by
  rcases a <;> rcases b <;> rcases c <;> simp_all [neq]

theorem less_than_f_branch (After : Bool) (a b : F) :
    less_than_f After a b =
      (if isnan a then (if isnan b then false else !After)
       else if isnan b then After else nlt a b) := by
  cases ha : isnan a <;> cases hb : isnan b <;>
    simp [less_than_f, cmp3, ha, hb]
  cases hab : nlt a b
  · cases hba : nlt b a <;> simp [hab, hba]
  · simp [hab]

theorem greater_than_f_branch (After : Bool) (a b : F) :
    greater_than_f After a b =
      (if isnan a then (if isnan b then false else After)
       else if isnan b then !After else ngt a b) := by
  cases ha : isnan a <;> cases hb : isnan b <;>
    simp [greater_than_f, cmp3, ha, hb, ngt_eq_nlt_swap]
  cases hab : nlt a b
  · cases hba : nlt b a <;> simp [hab, hba]
  · simp [hab, nlt_asymm hab]

theorem equal_to_f_branch (a b : F) :
    equal_to_f a b =
      (if isnan a || isnan b then isnan a && isnan b else neq a b) := by
  cases ha : isnan a <;> cases hb : isnan b <;>
    simp [equal_to_f, cmp3, ha, hb]
  cases hab : nlt a b
  · cases hba : nlt b a
    · simp [hab, hba]
      exact nlt_connex ha hb hab hba
    · simp [hab, hba]
      rw [neq_symm]
      exact nlt_neq hba
  · simp [hab]
    exact nlt_neq hab

theorem gt_swap (After : Bool) (a b : F) :
    greater_than_f After a b = less_than_f After b a := by
  rw [greater_than_f_branch, less_than_f_branch, ngt_eq_nlt_swap]
  cases ha : isnan a <;> cases hb : isnan b <;> simp [ha, hb]

theorem lt_irrefl_f (After : Bool) (x : F) : less_than_f After x x = false := by
  rw [less_than_f_branch]
  cases hx : isnan x <;> simp [hx, nlt_irrefl]

theorem lt_asymm_f {After : Bool} {a b : F} (h : less_than_f After a b = true) :
    less_than_f After b a = false := by
  rw [less_than_f_branch] at h ⊢
  cases ha : isnan a <;> cases hb : isnan b <;> simp_all
  exact nlt_asymm h

theorem lt_trans_f {After : Bool} {a b c : F} (h1 : less_than_f After a b = true)
    (h2 : less_than_f After b c = true) : less_than_f After a c = true := by
  rw [less_than_f_branch] at h1 h2 ⊢
  cases ha : isnan a <;> cases hb : isnan b <;> cases hc : isnan c <;> simp_all
  exact nlt_trans h1 h2

theorem equal_to_f_eq_not_lt (After : Bool) (a b : F) :
    equal_to_f a b = (!less_than_f After a b && !less_than_f After b a) := by
  rw [equal_to_f_branch, less_than_f_branch, less_than_f_branch]
  cases ha : isnan a <;> cases hb : isnan b <;> simp [ha, hb]
  cases hab : nlt a b
  · cases hba : nlt b a
    · simp [nlt_connex ha hb hab hba]
    · rw [neq_symm]
      simp [nlt_neq hba]
  · simp [nlt_neq hab]

theorem equal_to_f_refl (a : F) : equal_to_f a a = true := by
  rw [equal_to_f_branch]
  rcases a <;> simp [isnan, neq]

theorem equal_to_f_comm (a b : F) : equal_to_f a b = equal_to_f b a := by
  rw [equal_to_f_branch, equal_to_f_branch, neq_symm]
  cases ha : isnan a <;> cases hb : isnan b <;> simp [ha, hb]

theorem equal_to_f_trans {a b c : F} (h1 : equal_to_f a b = true)
    (h2 : equal_to_f b c = true) : equal_to_f a c = true := by
  rw [equal_to_f_branch] at h1 h2 ⊢
  cases ha : isnan a <;> cases hb : isnan b <;> cases hc : isnan c <;> simp_all
  exact neq_trans h1 h2

theorem equal_to_vf_cons (a b : F) (l r : List F) :
    equal_to_vf (a :: l) (b :: r) = (equal_to_f a b && equal_to_vf l r) := by
  by_cases h : l.length = r.length <;> simp [equal_to_vf, h]

theorem equal_to_vf_length_ne {lhs rhs : List F} (h : lhs.length ≠ rhs.length) :
    equal_to_vf lhs rhs = false := by
  simp [equal_to_vf, h]

theorem equal_to_vf_iff (lhs rhs : List F) :
    equal_to_vf lhs rhs = true ↔
      (lhs.length = rhs.length ∧
        ∀ (i : Nat) (h1 : i < lhs.length) (h2 : i < rhs.length),
          equal_to_f (lhs.get ⟨i, h1⟩) (rhs.get ⟨i, h2⟩) = true) := by
  induction lhs generalizing rhs with
  | nil =>
    cases rhs with
    | nil => simp [equal_to_vf]
    | cons b r => simp [equal_to_vf]
  | cons a l ih =>
    cases rhs with
    | nil => simp [equal_to_vf]
    | cons b r =>
      rw [equal_to_vf_cons, Bool.and_eq_true, ih]
      constructor
      · rintro ⟨hab, hlen, hall⟩
        refine ⟨by simp [hlen], ?_⟩
        intro i h1 h2
        cases i with
        | zero => exact hab
        | succ n => exact hall n (by simpa using h1) (by simpa using h2)
      · rintro ⟨hlen, hall⟩
        refine ⟨hall 0 (by simp) (by simp), by simpa using hlen, ?_⟩
        intro i h1 h2
        exact hall (i + 1) (by simpa using h1) (by simpa using h2)

theorem equiv_iff_equal (After : Bool) (a b : F) :
    (less_than_f After a b = false ∧ less_than_f After b a = false) ↔
      equal_to_f a b = true := by
  rw [equal_to_f_eq_not_lt After a b]
  cases h1 : less_than_f After a b <;> cases h2 : less_than_f After b a <;> simp

/-! Claim theorems. -/

/-- C1: the required hash/equality consistency invariant fails on the code:
the two one-element vectors holding NaNs with payload bit patterns 0 and 1
are equal under equal_to_vf, yet hash_vf feeds the raw object
representation of each NaN to boost hash_combine without canonicalization,
so the two hashes differ. -/
theorem hash_vf_nan_payload_inconsistency :
    equal_to_vf [F.nan 0] [F.nan 1] = true ∧
      hash_vf [F.nan 0] ≠ hash_vf [F.nan 1] := by
  decide

/-- C2: for a non-NaN x and NaN operands n, m, less_than_f x n returns
After, less_than_f n x returns the negation of After, and less_than_f on
two NaN operands returns false, for either value of After. -/
theorem less_than_f_nan_placement (After : Bool) (x n m : F)
    (hx : isnan x = false) (hn : isnan n = true) (hm : isnan m = true) :
    less_than_f After x n = After ∧ less_than_f After n x = !After ∧
      less_than_f After n m = false := by
  rw [less_than_f_branch, less_than_f_branch, less_than_f_branch]
  simp [hx, hn, hm]

/-- Witness for C2 at After = true, x = 1.0, n = NaN payload 0, m = NaN
payload 1. -/
theorem less_than_f_nan_placement_witness :
    less_than_f true (F.finite 1 false) (F.nan 0) = true ∧
      less_than_f true (F.nan 0) (F.finite 1 false) = !true ∧
      less_than_f true (F.nan 0) (F.nan 1) = false :=
  less_than_f_nan_placement true (F.finite 1 false) (F.nan 0) (F.nan 1) rfl rfl rfl

/-- C3: equal_to_f returns true exactly when the operands are equal under
native floating-point equality or both are NaN; in particular NaN equals
NaN whatever the payloads, NaN does not equal 1.0, and the two signed
zeros are equal. -/
theorem equal_to_f_native_or_both_nan :
    (∀ a b : F, equal_to_f a b = (neq a b || (isnan a && isnan b))) ∧
      equal_to_f (F.nan 0) (F.nan 5) = true ∧
      equal_to_f (F.nan 0) (F.finite 1 false) = false ∧
      equal_to_f (F.finite 0 false) (F.finite 0 true) = true := by
  refine ⟨?_, by decide, by decide, by decide⟩
  intro a b
  rcases a <;> rcases b <;> simp [equal_to_f_branch, isnan, neq]

/-- C4: equal_to_vf returns false whenever the two vectors have different
lengths, and on vectors of equal length it returns true exactly when every
pair of elements at the same index is equal under equal_to_f. -/
theorem equal_to_vf_elementwise (lhs rhs : List F) :
    (lhs.length ≠ rhs.length → equal_to_vf lhs rhs = false) ∧
      (lhs.length = rhs.length →
        (equal_to_vf lhs rhs = true ↔
          ∀ (i : Nat) (h1 : i < lhs.length) (h2 : i < rhs.length),
            equal_to_f (lhs.get ⟨i, h1⟩) (rhs.get ⟨i, h2⟩) = true)) := by
  refine ⟨fun h => equal_to_vf_length_ne h, fun hlen => ?_⟩
  rw [equal_to_vf_iff]
  exact ⟨fun h => h.2, fun h => ⟨hlen, h⟩⟩

/-- Witness for C4 at the length-mismatch pair from the spec. -/
theorem equal_to_vf_elementwise_witness :
    equal_to_vf [F.finite 1 false, F.finite 2 false]
      [F.finite 1 false, F.finite 2 false, F.finite 3 false] = false :=
  (equal_to_vf_elementwise [F.finite 1 false, F.finite 2 false]
    [F.finite 1 false, F.finite 2 false, F.finite 3 false]).1 (by decide)

/-- C5: for either placement flag, less_than_f and greater_than_f are
strict weak orderings over the full value space including NaN: both are
irreflexive, asymmetric and transitive, and the induced
neither-less-nor-greater equivalence of each is transitive. -/
theorem strict_weak_order_less_greater (After : Bool) :
    (∀ x : F, less_than_f After x x = false ∧ greater_than_f After x x = false) ∧
      (∀ a b : F, less_than_f After a b = true → less_than_f After b a = false) ∧
      (∀ a b : F, greater_than_f After a b = true → greater_than_f After b a = false) ∧
      (∀ a b c : F, less_than_f After a b = true → less_than_f After b c = true →
        less_than_f After a c = true) ∧
      (∀ a b c : F, greater_than_f After a b = true → greater_than_f After b c = true →
        greater_than_f After a c = true) ∧
      (∀ a b c : F,
        less_than_f After a b = false → less_than_f After b a = false →
        less_than_f After b c = false → less_than_f After c b = false →
        less_than_f After a c = false ∧ less_than_f After c a = false) ∧
      (∀ a b c : F,
        greater_than_f After a b = false → greater_than_f After b a = false →
        greater_than_f After b c = false → greater_than_f After c b = false →
        greater_than_f After a c = false ∧ greater_than_f After c a = false) := by
  refine ⟨fun x => ⟨lt_irrefl_f After x, ?_⟩, fun a b h => lt_asymm_f h,
    fun a b h => ?_, fun a b c h1 h2 => lt_trans_f h1 h2, fun a b c h1 h2 => ?_,
    fun a b c h1 h2 h3 h4 => ?_, fun a b c h1 h2 h3 h4 => ?_⟩
  · rw [gt_swap]
    exact lt_irrefl_f After x
  · rw [gt_swap] at h ⊢
    exact lt_asymm_f h
  · rw [gt_swap] at h1 h2 ⊢
    exact lt_trans_f h2 h1
  · have e1 := (equiv_iff_equal After a b).mp ⟨h1, h2⟩
    have e2 := (equiv_iff_equal After b c).mp ⟨h3, h4⟩
    have e3 := (equiv_iff_equal After a c).mpr (equal_to_f_trans e1 e2)
    exact e3
  · simp only [gt_swap] at h1 h2 h3 h4 ⊢
    have e1 := (equiv_iff_equal After a b).mp ⟨h2, h1⟩
    have e2 := (equiv_iff_equal After b c).mp ⟨h4, h3⟩
    have pair := (equiv_iff_equal After a c).mpr (equal_to_f_trans e1 e2)
    exact ⟨pair.2, pair.1⟩

/-- Witness for C5: asymmetry applied at a = 1.0, b = NaN with After =
true. -/
theorem strict_weak_order_less_greater_witness :
    less_than_f true (F.nan 0) (F.finite 1 false) = false :=
  (strict_weak_order_less_greater true).2.1 (F.finite 1 false) (F.nan 0) (by decide)

/-- C6: on non-NaN operands, less_than_f coincides with the native
less-than and greater_than_f with the native greater-than, for either
placement flag. -/
theorem less_greater_native_on_non_nan (After : Bool) (a b : F)
    (ha : isnan a = false) (hb : isnan b = false) :
    less_than_f After a b = nlt a b ∧ greater_than_f After a b = ngt a b := by
  rw [less_than_f_branch, greater_than_f_branch]
  simp [ha, hb]

/-- Witness for C6 at After = true, a = 1.0, b = 2.0. -/
theorem less_greater_native_on_non_nan_witness :
    less_than_f true (F.finite 1 false) (F.finite 2 false)
        = nlt (F.finite 1 false) (F.finite 2 false) ∧
      greater_than_f true (F.finite 1 false) (F.finite 2 false)
        = ngt (F.finite 1 false) (F.finite 2 false) :=
  less_greater_native_on_non_nan true (F.finite 1 false) (F.finite 2 false) rfl rfl

/-- C7: greater_than_f is the exact mirror of less_than_f under the same
placement flag, and with After = true both relations place every NaN above
every non-NaN value. -/
theorem greater_than_f_mirrors_less_than_f :
    (∀ (After : Bool) (a b : F), less_than_f After a b = greater_than_f After b a) ∧
      (∀ (bits : Nat) (x : F), isnan x = false →
        less_than_f true x (F.nan bits) = true ∧
          greater_than_f true (F.nan bits) x = true) := by
  constructor
  · intro After a b
    rw [gt_swap]
  · intro bits x hx
    have hn : isnan (F.nan bits) = true := rfl
    rw [less_than_f_branch, gt_swap, less_than_f_branch]
    simp [hx, hn]

/-- Witness for C7 at x = 3.0 against NaN with payload 2. -/
theorem greater_than_f_mirrors_less_than_f_witness :
    less_than_f true (F.finite 3 false) (F.nan 2) = true ∧
      greater_than_f true (F.nan 2) (F.finite 3 false) = true :=
  greater_than_f_mirrors_less_than_f.2 2 (F.finite 3 false) rfl

/-- C9: hash_vf applied to the empty sequence returns the fixed seed value
0, the initial accumulator before any hash_combine step. -/
theorem hash_vf_empty_is_seed : hash_vf [] = 0 :=
  rfl

/-- C10: equal_to_f coincides with the neither-less-nor-greater
equivalence induced by less_than_f for either placement flag, and is
consequently reflexive, symmetric and transitive. -/
theorem equal_to_f_matches_order_equivalence :
    (∀ (After : Bool) (a b : F),
      equal_to_f a b = (!less_than_f After a b && !less_than_f After b a)) ∧
      (∀ a b : F, equal_to_f a b = equal_to_f b a) ∧
      (∀ a : F, equal_to_f a a = true) ∧
      (∀ a b c : F, equal_to_f a b = true → equal_to_f b c = true →
        equal_to_f a c = true) :=
  ⟨equal_to_f_eq_not_lt, equal_to_f_comm, equal_to_f_refl,
    fun _ _ _ h1 h2 => equal_to_f_trans h1 h2⟩

/-- Witness for C10: transitivity applied across three NaN payloads. -/
theorem equal_to_f_matches_order_equivalence_witness :
    equal_to_f (F.nan 0) (F.nan 2) = true :=
  equal_to_f_matches_order_equivalence.2.2.2 (F.nan 0) (F.nan 1) (F.nan 2)
    (by decide) (by decide)

end PagmoDetail
